import Mathlib

/-!
# Verification of the kingcoin consensus / ledger core

A shallow embedding, in Lean 4, of the Rust sources of the `kingcoin`
peer-to-peer cryptocurrency node (`src/blockchain.rs`,
`src/blockchain/core.rs`, `src/network.rs`,
`src/network/communication.rs`, `src/network/communication/dispatch.rs`),
together with theorems settling the specification claims about it.

Modelling conventions:
* machine integers `i64`/`u64` become `Int`/`Nat` (all arithmetic that the
  modelled code performs stays far from the 64-bit boundary except the
  SHA-512 core, which reduces modulo `2 ^ 64` explicitly);
* byte strings (addresses, hashes) are `List Nat` of byte values;
* `HashSet` / `HashMap` become lists with set/associative insertion;
* code that can panic (`unwrap`, out-of-bounds indexing, `panic!`) is
  embedded as an `Option`-returning function, `none` marking the panic;
* the external `rsa` crate is opaque: public keys are an abstract stand-in
  type and RSA-PSS verification is a function parameter `verify`;
* `serde_json` serialization of payloads (used only to build the hashed
  data summaries and error payloads) is a function parameter `summaryT`;
  the timestamps produced by `Utc::now()` are explicit `now` parameters.
-/

set_option maxRecDepth 100000

namespace Kingcoin

/-! ## Bytes and 64-bit words -/

/-- A byte, kept as a `Nat` in `[0, 255]` by construction. -/
abbrev Byte := Nat

/-- A byte string. -/
abbrev Bytes := List Nat

/-- Reduce to a 64-bit word. -/
def w64 (n : Nat) : Nat := n % 2 ^ 64

/-- Right rotation of a 64-bit word. -/
def rotr64 (n x : Nat) : Nat := w64 ((x >>> n) ||| (x <<< (64 - n)))

/-- Logical right shift of a 64-bit word. -/
def shr64 (n x : Nat) : Nat := x >>> n

/-- Bitwise complement of a 64-bit word. -/
def not64 (x : Nat) : Nat := (2 ^ 64 - 1) ^^^ x

/-! ## SHA-512 (the `sha2` crate primitive used by `BlockCandidate::hash`)

A direct rendering of FIPS 180-4 SHA-512 over byte lists; it models the
external `sha2::Sha512` digest the repository feeds with
`previous-hash ‖ data-summary`.  Checked below against the standard
test vectors. -/

/-- Primality by trial division (for the SHA-512 constant schedule). -/
def isPrimeNat (n : Nat) : Bool :=
  2 ≤ n && ((List.range n).all fun d => d < 2 || n % d != 0)

/-- The first eighty primes, whose roots seed the SHA-512 constants. -/
def sha512Primes : List Nat := ((List.range 500).filter isPrimeNat).take 80

/-- Fueled bisection for the integer cube root (largest `x` with
`x³ ≤ n`, maintained as the invariant of `[lo, hi)`). -/
def icbrtAux (n : Nat) : Nat → Nat → Nat → Nat
  | 0, lo, _ => lo
  | fuel + 1, lo, hi =>
      if hi ≤ lo + 1 then lo
      else
        let mid := (lo + hi) / 2
        if mid * mid * mid ≤ n then icbrtAux n fuel mid hi
        else icbrtAux n fuel lo mid

/-- Integer cube root. -/
def icbrt (n : Nat) : Nat := icbrtAux n 256 0 (n + 1)

/-- First 64 fractional bits of the cube root of `p`. -/
def cbrtFrac64 (p : Nat) : Nat := icbrt (p <<< 192) % 2 ^ 64

/-- Fueled bisection for the integer square root. -/
def isqrtAux (n : Nat) : Nat → Nat → Nat → Nat
  | 0, lo, _ => lo
  | fuel + 1, lo, hi =>
      if hi ≤ lo + 1 then lo
      else
        let mid := (lo + hi) / 2
        if mid * mid ≤ n then isqrtAux n fuel mid hi
        else isqrtAux n fuel lo mid

/-- Integer square root. -/
def isqrt (n : Nat) : Nat := isqrtAux n 256 0 (n + 1)

/-- First 64 fractional bits of the square root of `p`. -/
def sqrtFrac64 (p : Nat) : Nat := isqrt (p <<< 128) % 2 ^ 64

/-- The eighty SHA-512 round constants: fractional cube-root bits of the
first eighty primes. -/
def sha512K : List Nat := sha512Primes.map cbrtFrac64

/-- The SHA-512 hash state: eight 64-bit words. -/
structure Sha512State where
  a : Nat
  b : Nat
  c : Nat
  d : Nat
  e : Nat
  f : Nat
  g : Nat
  h : Nat
deriving DecidableEq

/-- The SHA-512 initial hash value: fractional square-root bits of the
first eight primes. -/
def sha512H0 : Sha512State :=
  let hs := (sha512Primes.take 8).map sqrtFrac64
  ⟨hs.getD 0 0, hs.getD 1 0, hs.getD 2 0, hs.getD 3 0,
   hs.getD 4 0, hs.getD 5 0, hs.getD 6 0, hs.getD 7 0⟩

def sha512Ch (e f g : Nat) : Nat := (e &&& f) ^^^ (not64 e &&& g)

def sha512Maj (a b c : Nat) : Nat := (a &&& b) ^^^ (a &&& c) ^^^ (b &&& c)

def sha512BigSigma0 (x : Nat) : Nat := rotr64 28 x ^^^ rotr64 34 x ^^^ rotr64 39 x

def sha512BigSigma1 (x : Nat) : Nat := rotr64 14 x ^^^ rotr64 18 x ^^^ rotr64 41 x

def sha512SmallSigma0 (x : Nat) : Nat := rotr64 1 x ^^^ rotr64 8 x ^^^ shr64 7 x

def sha512SmallSigma1 (x : Nat) : Nat := rotr64 19 x ^^^ rotr64 61 x ^^^ shr64 6 x

/-- Big-endian bytes (width `k`) of a natural number. -/
def natToBytesBE (k n : Nat) : Bytes :=
  ((List.range k).reverse).map fun i => (n >>> (8 * i)) % 256

/-- Big-endian 64-bit word from (at most eight) bytes. -/
def bytesToWord64 (bs : Bytes) : Nat := bs.foldl (fun acc b => acc * 256 + b) 0

/-- Split a list into chunks of `n` elements (`n > 0`); fueled for
structural termination. -/
def chunksGo (n : Nat) : Nat → List α → List (List α)
  | 0, _ => []
  | _, [] => []
  | fuel + 1, l => l.take n :: chunksGo n fuel (l.drop n)

def chunks (n : Nat) (l : List α) : List (List α) := chunksGo n l.length l

/-- SHA-512 message padding: `0x80`, zeros, then the 128-bit big-endian bit
length, up to a multiple of 128 bytes. -/
def sha512Pad (msg : Bytes) : Bytes :=
  let l := msg.length
  let zeros := (128 - (l + 17) % 128) % 128
  msg ++ [0x80] ++ List.replicate zeros 0 ++ natToBytesBE 16 (8 * l)

/-- One message-schedule extension step: appends
`σ1(W[t-2]) + W[t-7] + σ0(W[t-15]) + W[t-16]`. -/
def sha512ExtendStep (ws : List Nat) : List Nat :=
  let n := ws.length
  ws ++ [w64 (sha512SmallSigma1 (ws.getD (n - 2) 0) + ws.getD (n - 7) 0 +
              sha512SmallSigma0 (ws.getD (n - 15) 0) + ws.getD (n - 16) 0)]

/-- The eighty-word message schedule from a sixteen-word block. -/
def sha512Schedule (ws : List Nat) : List Nat :=
  (List.range 64).foldl (fun acc _ => sha512ExtendStep acc) ws

/-- One SHA-512 compression round for a (constant, schedule-word) pair. -/
def sha512Round (s : Sha512State) (kw : Nat × Nat) : Sha512State :=
  let t1 := w64 (s.h + sha512BigSigma1 s.e + sha512Ch s.e s.f s.g + kw.1 + kw.2)
  let t2 := w64 (sha512BigSigma0 s.a + sha512Maj s.a s.b s.c)
  ⟨w64 (t1 + t2), s.a, s.b, s.c, w64 (s.d + t1), s.e, s.f, s.g⟩

/-- Compress one sixteen-word block into the hash state. -/
def sha512Compress (h0 : Sha512State) (block : List Nat) : Sha512State :=
  let s := (sha512K.zip (sha512Schedule block)).foldl sha512Round h0
  ⟨w64 (h0.a + s.a), w64 (h0.b + s.b), w64 (h0.c + s.c), w64 (h0.d + s.d),
   w64 (h0.e + s.e), w64 (h0.f + s.f), w64 (h0.g + s.g), w64 (h0.h + s.h)⟩

/-- SHA-512 of a byte string, as the 64-byte digest. -/
def sha512 (msg : Bytes) : Bytes :=
  let blocks := chunks 16 ((chunks 8 (sha512Pad msg)).map bytesToWord64)
  let s := blocks.foldl sha512Compress sha512H0
  ([s.a, s.b, s.c, s.d, s.e, s.f, s.g, s.h].map (natToBytesBE 8)).flatten

/-! ## Addresses, constants, hex encoding (`src/blockchain.rs`) -/

/-- Rust `pub type Address = [u8; 32]`. -/
abbrev Address := Bytes

/-- Rust `type BlockHash = [u8; 64]` (from `lib.rs`, used throughout). -/
abbrev BlockHash := Bytes

/-- Peer identities (`libp2p::PeerId`), opaque to the modelled core. -/
abbrev PeerId := Nat

/-- Timestamps (`chrono::DateTime<Utc>`), opaque to the modelled core. -/
abbrev DateTime := Nat

/-- RSA public keys of the external `rsa` crate, opaque stand-in. -/
abbrev RsaPublicKey := Nat

/-- RSA private keys of the external `rsa` crate, opaque stand-in. -/
abbrev RsaPrivateKey := Nat

def TRANSACTION_FEE : Int := 50

def TRANSACTIONS_PER_BLOCK : Nat := 1

/-- Rust `MINTING_WALLET_ADDRESS : Address = [0; 32]`. -/
def MINTING_WALLET_ADDRESS : Address := List.replicate 32 0

/-- Rust `STAKE_WALLET_ADDRESS`: `[0; 32]` with first byte `1`. -/
def STAKE_WALLET_ADDRESS : Address := 1 :: List.replicate 31 0

/-- Rust `REWARD_WALLET_ADDRESS`: `[0; 32]` with first byte `2`. -/
def REWARD_WALLET_ADDRESS : Address := 2 :: List.replicate 31 0

/-- Rust `TOTAL_TRANSFERS_PER_BLOCK = 2 * TRANSACTIONS_PER_BLOCK + 2`. -/
def TOTAL_TRANSFERS_PER_BLOCK : Nat := 2 * TRANSACTIONS_PER_BLOCK + 2

/-- Lower-case hex digit. -/
def hexChar (n : Nat) : Char := if n < 10 then Char.ofNat (48 + n) else Char.ofNat (87 + n)

/-- Rust `array_bytes::bytes2hex("", bytes)`: lower-case hex, no prefix. -/
def bytes2hex (bs : Bytes) : String :=
  String.mk (bs.flatMap fun b => [hexChar (b / 16), hexChar (b % 16)])

/-- UTF-8 bytes of a string (`str::as_bytes`). -/
def strBytes (s : String) : Bytes :=
  (s.data.flatMap String.utf8EncodeChar).map fun b => b.toNat

/-! ## Transactions (`src/blockchain.rs`) -/

/-- Rust `struct Transaction`; `amount` is the signed 64-bit amount. -/
structure Transaction where
  sourceAddress : Address
  targetAddress : Address
  title : String
  amount : Int
  time : DateTime
  senderSignature : Option String
deriving DecidableEq

/-- Rust `Transaction::new`: signature starts out absent. -/
def Transaction.new (sourceAddress targetAddress : Address) (message : String)
    (amount : Int) (time : DateTime) : Transaction :=
  ⟨sourceAddress, targetAddress, message, amount, time, none⟩

/-- Rust `Transaction::signed_content`:
`hex(source) ‖ hex(target) ‖ decimal(amount) ‖ title`. -/
def Transaction.signedContent (t : Transaction) : String :=
  bytes2hex t.sourceAddress ++ bytes2hex t.targetAddress ++ toString t.amount ++ t.title

/-- Rust `Transaction::stake_bid`. -/
def Transaction.stakeBidTx (bid : Int) (sourceAddress : Address) (now : DateTime) : Transaction :=
  Transaction.new sourceAddress STAKE_WALLET_ADDRESS "" bid now

/-- Rust `Transaction::mint`. -/
def Transaction.mintTx (allowance : Int) (targetAddress : Address) (now : DateTime) : Transaction :=
  Transaction.new MINTING_WALLET_ADDRESS targetAddress "MINT" allowance now

/-- Rust `Transaction::stake_return`. -/
def Transaction.stakeReturn (bid : Int) (targetAddress : Address) (now : DateTime) : Transaction :=
  Transaction.new STAKE_WALLET_ADDRESS targetAddress "" bid now

/-- Rust `Transaction::forging_reward`. -/
def Transaction.forgingReward (targetAddress : Address) (now : DateTime) : Transaction :=
  Transaction.new REWARD_WALLET_ADDRESS targetAddress ""
    (TRANSACTION_FEE * (TRANSACTIONS_PER_BLOCK : Int)) now

/-- Rust `struct StakeBid`. -/
structure StakeBid where
  stake : Int
  transaction : Transaction
deriving DecidableEq

/-- Rust `StakeBid::bid`. -/
def StakeBid.bid (bid : Int) (walletAddress : Address) (now : DateTime) : StakeBid :=
  ⟨bid, Transaction.stakeBidTx bid walletAddress now⟩

/-! ## Wallets (`src/blockchain.rs`) -/

/-- Rust `struct Wallet { address, public_key: Option<RsaPublicKey> }`. -/
structure Wallet where
  address : Address
  publicKey : Option RsaPublicKey
deriving DecidableEq

/-- Rust `struct HotWallet { address, private_key }`. -/
structure HotWallet where
  address : Address
  privateKey : RsaPrivateKey
deriving DecidableEq

/-- Rust `Wallet::is_signature_valid`, parameterized by the external
RSA-PSS/SHA-512 verification primitive `verify` (true iff verification
succeeds).  The source computes `key.verify(content, sig).is_err()`, so it
returns the NEGATION of the verification outcome when a public key is
present, and `false` when the wallet has no key. -/
def Wallet.isSignatureValid (verify : RsaPublicKey → String → String → Bool)
    (w : Wallet) (transaction : Transaction) (signature : String) : Bool :=
  match w.publicKey with
  | none => false
  | some key => !(verify key transaction.signedContent signature)

/-- Rust `find_wallet_by_address`. -/
def findWalletByAddress (wallets : List Wallet) (address : Address) : Option Wallet :=
  wallets.find? fun w => w.address == address

/-! ## Block keys and blocks (`src/blockchain/core.rs`) -/

/-- Rust `struct BlockKey { hash, previous_hash: Option<BlockHash> }`. -/
structure BlockKey where
  hash : BlockHash
  previousHash : Option BlockHash
deriving DecidableEq

/-- Rust `BlockKey::default()`: the genesis sentinel
(hash = 64 zero bytes, no previous hash). -/
def BlockKey.sentinel : BlockKey := ⟨List.replicate 64 0, none⟩

/-- Rust `struct BlockCandidate<T>`. -/
structure BlockCandidate (T : Type) where
  key : BlockKey
  blockNumber : Nat
  data : List T
  time : DateTime
deriving DecidableEq

/-- Fields of one committed block (`Block<T>` without its `previous_block`
pointer). -/
structure BlockNode (T : Type) where
  data : List T
  key : BlockKey
  time : Option DateTime
  blockNumber : Nat
deriving DecidableEq

/-- Rust `struct Block<T>`, with the owned `previous_block` chain of the
source encoded as the list of ancestor records, nearest first (the spec's
own §9 representation note). -/
structure Block (T : Type) where
  node : BlockNode T
  prevNodes : List (BlockNode T)
deriving DecidableEq

def Block.data (b : Block T) : List T := b.node.data

def Block.key (b : Block T) : BlockKey := b.node.key

def Block.time (b : Block T) : Option DateTime := b.node.time

def Block.blockNumber (b : Block T) : Nat := b.node.blockNumber

/-- Rust `Block::previous_block`. -/
def Block.previousBlock (b : Block T) : Option (Block T) :=
  match b.prevNodes with
  | [] => none
  | p :: rest => some ⟨p, rest⟩

/-- Rust `Block::new` (commit time `now`). -/
def Block.newBlock (previousBlock : Option (Block T)) (data : List T)
    (blockNumber : Nat) (key : BlockKey) (now : DateTime) : Block T :=
  match previousBlock with
  | none => ⟨⟨data, key, some now, blockNumber⟩, []⟩
  | some p => ⟨⟨data, key, some now, blockNumber⟩, p.node :: p.prevNodes⟩

/-- All block records of a chain ending at `b`, tip first. -/
def Block.nodes (b : Block T) : List (BlockNode T) := b.node :: b.prevNodes

/-! ## Errors (`src/blockchain/core.rs`, `src/blockchain.rs`)

Error payload strings of the source (pretty-printed block JSON) carry no
information the claims inspect and are elided from the constructors. -/

/-- The kinds of `Box<dyn BlockchainError>` the source constructs. -/
inductive BlockchainError where
  | transactionInvalid
  | blockInvalid (message : String)
  | blockCreation
  | transactionCount (requiredCount actualCount : Nat)
  | illegalBalance
deriving DecidableEq

/-- Rust `struct BlockAdditionResult`. -/
structure BlockAdditionResult where
  blockNumber : Nat
  blockHash : BlockHash
deriving DecidableEq

/-! ## Chain operations (`src/blockchain/core.rs`) -/

/-- Rust `BlockCandidate::summarize`: concatenation (no delimiter) of the
entries' canonical summaries; the `serde_json` summary of one entry is the
parameter `summaryT`. -/
def BlockCandidate.summarize (summaryT : T → String) (data : List T) : String :=
  (data.map summaryT).foldl (fun acc s => acc ++ s) ""

/-- Rust `BlockCandidate::hash(previous_key, data_summary)`:
if the previous key has no previous-hash the genesis sentinel is returned
unchanged; otherwise the previous key's own PREVIOUS-hash `matched` seeds
SHA-512 over `matched ‖ data_summary`. -/
def BlockCandidate.hashKey (previousKey : BlockKey) (dataSummary : String) : BlockKey :=
  match previousKey.previousHash with
  | none => BlockKey.sentinel
  | some matched => ⟨sha512 (matched ++ strBytes dataSummary), some matched⟩

/-- Rust `BlockCandidate::create_new(data, previous_block)`; the candidate
is stamped with the creation moment `now`. -/
def BlockCandidate.createNew (summaryT : T → String) (now : DateTime) (data : List T)
    (previousBlock : Option (Block T)) : Except BlockchainError (BlockCandidate T) :=
  match previousBlock with
  | none => .error .blockCreation
  | some previousBlock =>
      .ok { key := BlockCandidate.hashKey previousBlock.key
                     (BlockCandidate.summarize summaryT data),
            blockNumber := previousBlock.blockNumber + 1,
            data := data,
            time := now }

/-- Rust `impl From<BlockCandidate<T>> for Block<T>`: no previous link yet,
commit time = the CANDIDATE's own timestamp. -/
def Block.fromCandidate (c : BlockCandidate T) : Block T :=
  ⟨⟨c.data, c.key, some c.time, c.blockNumber⟩, []⟩

/-- Rust `struct Blockchain<T>`. -/
structure Blockchain (T : Type) where
  lastBlock : Option (Block T)
  chainLength : Nat
  uncommittedData : List T
  dataUnitsPerBlock : Nat
  remainingPool : Int
deriving DecidableEq

/-- Rust `Blockchain::new(genesis_block, units, pool)`: the genesis block
does not count towards `chain_length`. -/
def Blockchain.mkNew (genesisBlock : Block T) (dataUnitsPerBlock : Nat)
    (remainingPool : Int) : Blockchain T :=
  ⟨some genesisBlock, 0, [], dataUnitsPerBlock, remainingPool⟩

/-- Rust `Blockchain::mint`: subtract if the pool suffices, else return 0
and leave the pool unchanged. -/
def Blockchain.mint (c : Blockchain T) (amount : Int) : Blockchain T × Int :=
  if amount ≤ c.remainingPool then
    ({ c with remainingPool := c.remainingPool - amount }, c.remainingPool - amount)
  else
    (c, 0)

/-- Rust `Blockchain::<Transaction>::transaction_chain(genesis)`: genesis
block (sentinel key, number 0, committed at `now`), units-per-block
`2 * TRANSACTIONS_PER_BLOCK`, mint pool 21,000,000 minus the genesis
transfers sourced at the minting address. -/
def Blockchain.transactionChain (now : DateTime) (genesisTransactions : List Transaction) :
    Blockchain Transaction :=
  let toMint : Int :=
    ((genesisTransactions.filter fun t =>
        t.sourceAddress == MINTING_WALLET_ADDRESS).map Transaction.amount).sum
  let genesisBlock := Block.newBlock none genesisTransactions 0 BlockKey.sentinel now
  (Blockchain.mkNew genesisBlock (2 * TRANSACTIONS_PER_BLOCK) 21000000).mint toMint |>.1

/-- Rust `Blockchain::add_uncommitted`. -/
def Blockchain.addUncommitted (c : Blockchain T) (data : T) : Blockchain T :=
  { c with uncommittedData := c.uncommittedData ++ [data] }

/-- Rust `Blockchain::has_enough_uncommitted_data`. -/
def Blockchain.hasEnoughUncommittedData (c : Blockchain T) : Bool :=
  c.uncommittedData.length == c.dataUnitsPerBlock

/-- Rust `Blockchain::remove_uncommitted_data`: drain the first
`min(pool length, units-per-block)` pool entries. -/
def Blockchain.removeUncommittedData (c : Blockchain T) : Blockchain T :=
  let limit := min c.uncommittedData.length c.dataUnitsPerBlock
  { c with uncommittedData := c.uncommittedData.drop limit }

/-- Rust `Blockchain::append_block`: overwrite the block's number with the
current chain length, link it above the previous tip, grow the length. -/
def Blockchain.appendBlock (c : Blockchain T) (block : Block T) :
    Blockchain T × BlockAdditionResult :=
  let blockNumber := c.chainLength
  let blockHash := block.key.hash
  let block' : Block T := { block with node := { block.node with blockNumber := blockNumber } }
  let c' :=
    match c.lastBlock with
    | none => { c with lastBlock := some block', chainLength := c.chainLength + 1 }
    | some tail =>
        { c with
          lastBlock := some ⟨block'.node, tail.node :: tail.prevNodes⟩,
          chainLength := c.chainLength + 1 }
  (c', ⟨blockNumber, blockHash⟩)

/-- Rust `Blockchain::submit_new_block`: convert the candidate, drain the
pool, append at the tip. -/
def Blockchain.submitNewBlock (c : Blockchain T) (blockCandidate : BlockCandidate T) :
    Blockchain T × BlockAdditionResult :=
  let block := Block.fromCandidate blockCandidate
  (c.removeUncommittedData).appendBlock block

/-! ## Balances (`src/blockchain.rs`, `Wallet::balance*`) -/

/-- Rust `Wallet::balance_pool`: one pass, `spent` on `source = self`,
otherwise (`else if`!) `gained` on `target = self`. -/
def Wallet.balancePool (w : Wallet) (transactionPool : List Transaction) : Int :=
  let acc := transactionPool.foldl
    (fun (acc : Int × Int) transaction =>
      if transaction.sourceAddress == w.address then (acc.1 + transaction.amount, acc.2)
      else if transaction.targetAddress == w.address then (acc.1, acc.2 + transaction.amount)
      else acc)
    (0, 0)
  acc.2 - acc.1

/-- Rust `Wallet::balance_chain`: walk tip → genesis summing
`balance_pool` of each block's data. -/
def Wallet.balanceChain (w : Wallet) (blockchain : Blockchain Transaction) : Int :=
  match blockchain.lastBlock with
  | none => 0
  | some b => (b.nodes.map fun r => w.balancePool r.data).sum

/-- Rust `Wallet::balance`: the mint wallet reads the remaining pool; any
other wallet sums the transaction chain, its uncommitted pool, and the
stakes chain. -/
def Wallet.balance (w : Wallet) (transactionChain stakesChain : Blockchain Transaction) : Int :=
  if w.address == MINTING_WALLET_ADDRESS then
    transactionChain.remainingPool
  else
    w.balanceChain transactionChain + w.balancePool transactionChain.uncommittedData +
      w.balanceChain stakesChain

/-! ## The validator (`src/blockchain.rs`, `TransactionValidator`)

Functions that can hit a Rust panic (indexing `data()[0]` of an empty
vector) return `Option (Except ...)`, `none` marking the panic. -/

/-- Rust `struct TransactionValidator`. -/
structure TransactionValidator where
  wallets : List Wallet
  transactions : Blockchain Transaction
  stakes : Blockchain Transaction

/-- Rust `TransactionValidator::is_not_special`. -/
def TransactionValidator.isNotSpecial (transaction : Transaction) : Bool :=
  transaction.sourceAddress != REWARD_WALLET_ADDRESS &&
    transaction.sourceAddress != STAKE_WALLET_ADDRESS &&
    transaction.targetAddress != REWARD_WALLET_ADDRESS

/-- Rust `TransactionValidator::validate_hash`: recompute the key from the
candidate's own key and data summary and compare both components. -/
def TransactionValidator.validateHash (summaryT : Transaction → String)
    (blockCandidate : BlockCandidate Transaction) : Except BlockchainError Unit :=
  let givenKey := blockCandidate.key
  let computed := BlockCandidate.hashKey givenKey
      (BlockCandidate.summarize summaryT blockCandidate.data)
  if computed.previousHash == givenKey.previousHash && computed.hash == givenKey.hash then
    .ok ()
  else
    .error (.blockInvalid "Invalid hash")

/-- Rust `TransactionValidator::validate_stake_return`: the stakes tip's
first transaction (indexing panics on an empty data vector, modelled as
`none`) must be returned by exactly one transaction of the candidate. -/
def TransactionValidator.validateStakeReturn (v : TransactionValidator)
    (block : BlockCandidate Transaction) : Option (Except BlockchainError Unit) :=
  match v.stakes.lastBlock with
  | none => some (.error .transactionInvalid)
  | some stakesBlock =>
      match stakesBlock.data.head? with
      | none => none
      | some stakeBid =>
          let stakeReturns := (block.data.filter fun transaction =>
            transaction.sourceAddress == STAKE_WALLET_ADDRESS &&
              transaction.targetAddress == stakeBid.sourceAddress &&
              transaction.amount == stakeBid.amount).length
          if stakeReturns == 1 then some (.ok ()) else some (.error .transactionInvalid)

/-- Rust `TransactionValidator::validate_reward_transfer`.  The reward
filter dereferences the stakes tip's first transaction lazily: it panics
(`none`) only when some candidate transaction has the reward source while
the stakes tip data is empty. -/
def TransactionValidator.validateRewardTransfer (v : TransactionValidator)
    (block : BlockCandidate Transaction) : Option (Except BlockchainError Unit) :=
  match v.stakes.lastBlock with
  | none => some (.error .transactionInvalid)
  | some stakesBlock =>
      let totalFee : Int := ((block.data.filter fun transaction =>
          transaction.targetAddress == REWARD_WALLET_ADDRESS &&
            transaction.amount == TRANSACTION_FEE).map Transaction.amount).sum
      let expectedReward := TRANSACTION_FEE * (TRANSACTIONS_PER_BLOCK : Int)
      let rewardSources := block.data.filter fun transaction =>
          transaction.sourceAddress == REWARD_WALLET_ADDRESS
      if rewardSources.isEmpty then
        if (0 : Int) == totalFee && totalFee == expectedReward then some (.ok ())
        else some (.error .transactionInvalid)
      else
        match stakesBlock.data.head? with
        | none => none
        | some firstStake =>
            let reward : Int := ((rewardSources.filter fun transaction =>
                transaction.targetAddress == firstStake.sourceAddress).map
                  Transaction.amount).sum
            if reward == totalFee && totalFee == expectedReward then some (.ok ())
            else some (.error .transactionInvalid)

/-- Rust `TransactionValidator::validate_transfer`: signature check (with
the inverted `is_signature_valid`) and balance cover. -/
def TransactionValidator.validateTransfer (verify : RsaPublicKey → String → String → Bool)
    (v : TransactionValidator) (transaction : Transaction) (signature : String)
    (sourceWallet : Wallet) : Except BlockchainError Unit :=
  let availableBalance := sourceWallet.balance v.transactions v.stakes
  let verified := sourceWallet.isSignatureValid verify transaction signature
  if !verified || availableBalance < transaction.amount then
    .error .transactionInvalid
  else
    .ok ()

/-- Rust `TransactionValidator::validate_transaction`. -/
def TransactionValidator.validateTransaction (verify : RsaPublicKey → String → String → Bool)
    (v : TransactionValidator) (transaction : Transaction) : Except BlockchainError Unit :=
  if transaction.sourceAddress == transaction.targetAddress then
    .error .transactionInvalid
  else
    match transaction.senderSignature with
    | none => .error .transactionInvalid
    | some signature =>
        let sourceWallet := findWalletByAddress v.wallets transaction.sourceAddress
        match findWalletByAddress v.wallets transaction.targetAddress with
        | none => .error .transactionInvalid
        | some _ =>
            match sourceWallet with
            | none => .error .transactionInvalid
            | some wallet => v.validateTransfer verify transaction signature wallet

/-- Rust `try_for_each`: first error wins. -/
def validateEach (verify : RsaPublicKey → String → String → Bool)
    (v : TransactionValidator) : List Transaction → Except BlockchainError Unit
  | [] => .ok ()
  | transaction :: rest =>
      match v.validateTransaction verify transaction with
      | .error e => .error e
      | .ok _ => validateEach verify v rest

/-- Rust `TransactionValidator::validate_transactions`: the per-transfer
rules run on the non-special transactions only. -/
def TransactionValidator.validateTransactions (verify : RsaPublicKey → String → String → Bool)
    (v : TransactionValidator) (block : BlockCandidate Transaction) :
    Except BlockchainError Unit :=
  validateEach verify v (block.data.filter TransactionValidator.isNotSpecial)

/-- Rust `TransactionValidator::block_valid` (`impl Validate`): the
cardinality gate, then hash, stake return, reward, and per-transfer rules. -/
def TransactionValidator.blockValid (verify : RsaPublicKey → String → String → Bool)
    (summaryT : Transaction → String) (v : TransactionValidator)
    (block : BlockCandidate Transaction) : Option (Except BlockchainError Unit) :=
  if block.data.length == TOTAL_TRANSFERS_PER_BLOCK then
    match TransactionValidator.validateHash summaryT block with
    | .error e => some (.error e)
    | .ok _ =>
        match v.validateStakeReturn block with
        | none => none
        | some (.error e) => some (.error e)
        | some (.ok _) =>
            match v.validateRewardTransfer block with
            | none => none
            | some (.error e) => some (.error e)
            | some (.ok _) => some (v.validateTransactions verify block)
  else
    some (.error .transactionInvalid)

/-! ## Votes and node state (`src/network/communication.rs`, `src/network.rs`) -/

/-- Rust `struct Vote { id: PeerId, block_valid: bool }`. -/
structure Vote where
  id : PeerId
  blockValid : Bool
deriving DecidableEq

/-- Rust `struct VotingResult` (`i64` tallies). -/
structure VotingResult where
  blockValid : Int
  blockInvalid : Int
deriving DecidableEq

/-- Rust `VotingResult::evaluate`. -/
def VotingResult.evaluate (blockValid blockInvalid : Int) : VotingResult :=
  ⟨blockValid, blockInvalid⟩

/-- Rust `VotingResult::should_append_block`: strictly more valid than
invalid votes. -/
def VotingResult.shouldAppendBlock (r : VotingResult) : Bool :=
  r.blockValid > r.blockInvalid

/-- Set-semantics insertion, modelling `HashSet::insert`. -/
def setInsert [DecidableEq α] (s : List α) (a : α) : List α :=
  if s.contains a then s else s ++ [a]

/-- Set-semantics removal, modelling `HashSet::remove`. -/
def setRemove [DecidableEq α] (s : List α) (a : α) : List α := s.erase a

/-- Association-list insertion, modelling `HashMap::insert`. -/
def assocInsert [DecidableEq κ] (m : List (κ × α)) (k : κ) (v : α) : List (κ × α) :=
  if m.any fun p => p.1 == k then
    m.map fun p => if p.1 == k then (k, v) else p
  else
    m ++ [(k, v)]

/-- Association-list lookup, modelling `HashMap::get`/`remove`'s found value. -/
def assocGet [DecidableEq κ] (m : List (κ × α)) (k : κ) : Option α :=
  (m.find? fun p => p.1 == k).map Prod.snd

/-- Association-list deletion, modelling `HashMap::remove`'s effect. -/
def assocRemove [DecidableEq κ] (m : List (κ × α)) (k : κ) : List (κ × α) :=
  m.filter fun p => p.1 != k

/-- Rust `struct NodeState` (`src/network.rs`). -/
structure NodeState where
  nodeId : PeerId
  userWallet : HotWallet
  nodeBid : Option StakeBid
  peersBids : List (PeerId × StakeBid)
  voting : Bool
  wallets : List Wallet
  peersWallets : List (PeerId × Wallet)
  blockCreator : Option PeerId
  votes : List Vote
  pendingBlock : Option (BlockCandidate Transaction)
deriving DecidableEq

/-- Rust `NodeState::update_peers_bids`. -/
def NodeState.updatePeersBids (s : NodeState) (peerId : PeerId) (bid : StakeBid) : NodeState :=
  { s with peersBids := assocInsert s.peersBids peerId bid }

/-- Rust `NodeState::all_bade`: as many peer bids as foreign wallets. -/
def NodeState.allBade (s : NodeState) : Bool :=
  s.peersBids.length == s.wallets.length - 1

/-- Rust `NodeState::add_vote`: raises the voting flag and inserts. -/
def NodeState.addVote (s : NodeState) (vote : Vote) : NodeState :=
  { s with voting := true, votes := setInsert s.votes vote }

/-- Rust `NodeState::all_voted`. -/
def NodeState.allVoted (s : NodeState) : Bool :=
  s.votes.length == s.wallets.length - 1

/-- Rust `NodeState::summarize_votes`: tally the verdicts, clear the vote
set and the voting flag, return `VotingResult::evaluate(valid, invalid)`. -/
def NodeState.summarizeVotes (s : NodeState) : VotingResult × NodeState :=
  let blockValid : Int := ((s.votes.filter fun v => v.blockValid).length : Nat)
  let blockInvalid : Int := ((s.votes.filter fun v => !v.blockValid).length : Nat)
  (VotingResult.evaluate blockValid blockInvalid, { s with votes := [], voting := false })

/-- Rust `Iterator::max_by` on the bids map: keeps the LAST entry among
equally maximal stakes. -/
def maxBidEntry (x : PeerId × StakeBid) (xs : List (PeerId × StakeBid)) : PeerId × StakeBid :=
  xs.foldl (fun best next => if best.2.stake > next.2.stake then best else next) x

/-- Rust `NodeState::select_highest_bid`: maximal peer bid, the local bid
winning non-strict comparisons; `unwrap` on an empty bids map is a panic
(`none`). -/
def NodeState.selectHighestBid (s : NodeState) : Option (PeerId × StakeBid) :=
  match s.peersBids with
  | [] => none
  | x :: xs =>
      let best := maxBidEntry x xs
      match s.nodeBid with
      | none => some best
      | some bid => if best.2.stake > bid.stake then some best else some (s.nodeId, bid)

/-- Rust `NodeState::reset_peer_bids`. -/
def NodeState.resetPeerBids (s : NodeState) : NodeState := { s with peersBids := [] }

/-- Rust `NodeState::kick`: `peers_wallets.remove(&peer).unwrap()` panics
(`none`) when the peer has no recorded wallet; otherwise the wallet leaves
the known set and the peer's bid is dropped. -/
def NodeState.kick (s : NodeState) (peer : PeerId) : Option NodeState :=
  match assocGet s.peersWallets peer with
  | none => none
  | some wallet =>
      some { s with
             peersWallets := assocRemove s.peersWallets peer,
             wallets := setRemove s.wallets wallet,
             peersBids := assocRemove s.peersBids peer }

/-! ## Dispatch handlers (`src/network/communication/dispatch.rs`) -/

/-- Bitwise complement of an `i64` value: the Rust expression
`!balance < amount` parses as `(!balance) < amount`, and on integers `!`
is bitwise NOT, i.e. `-balance - 1`. -/
def i64Not (balance : Int) : Int := -balance - 1

/-- Rust `try_forge_block`: refuse with `TransactionCountError` while the
pool is short, else commit the first units, the stake return and the
forging reward into a fresh candidate; `node_bid().unwrap()` panics
(`none`) without a bid. -/
def tryForgeBlock (summaryT : Transaction → String) (now : DateTime)
    (transactions : Blockchain Transaction) (s : NodeState) :
    Option (Except BlockchainError (BlockCandidate Transaction)) :=
  let data := transactions.uncommittedData
  let requiredUnits := transactions.dataUnitsPerBlock
  if data.length < requiredUnits then
    some (.error (.transactionCount requiredUnits data.length))
  else
    match s.nodeBid with
    | none => none
    | some nodeBid =>
        let walletNodeAddress := s.userWallet.address
        let toCommit := data.take requiredUnits ++
          [Transaction.stakeReturn nodeBid.stake walletNodeAddress now,
           Transaction.forgingReward walletNodeAddress now]
        some (BlockCandidate.createNew summaryT now toCommit transactions.lastBlock)

/-- Rust `forge_block`: a candidate is published as `SubmitBlock`; a
forge error is only logged (`some none`); `none` is a panic inside. -/
def forgeBlock (summaryT : Transaction → String) (now : DateTime)
    (transactions : Blockchain Transaction) (s : NodeState) :
    Option (Option (BlockCandidate Transaction)) :=
  match tryForgeBlock summaryT now transactions s with
  | none => none
  | some (.ok blockCandidate) => some (some blockCandidate)
  | some (.error _) => some none

/-- Outcome of `on_stake_raised`: the node state and the stakes chain
after the handler, whether the sending peer got banned, and the block
candidate published by a local forge, if any. -/
structure StakeRaisedOutcome where
  nodeState : NodeState
  stakes : Blockchain Transaction
  banned : Bool
  published : Option (BlockCandidate Transaction)
deriving DecidableEq

/-- Rust `on_stake_raised` (`none` = a panic inside the handler).  The
`swarm.local_peer_id()` the winner is compared against is the id the node
state was initialized with.  NOTE the guard: the source tests
`!balance < stake_bid.transaction().amount()`, i.e.
`(-balance - 1) < amount`, NOT `!(balance < amount)`. -/
def onStakeRaised (summaryT : Transaction → String) (now : DateTime)
    (transactions : Blockchain Transaction) (sendingPeer : PeerId) (s : NodeState)
    (stakes : Blockchain Transaction) (stakeBid : StakeBid) : Option StakeRaisedOutcome :=
  match s.wallets.find? fun w => w.address == stakeBid.transaction.sourceAddress with
  | none => some ⟨s, stakes, false, none⟩
  | some wallet =>
      let balance := wallet.balance transactions stakes
      if i64Not balance < stakeBid.transaction.amount then
        let s := s.updatePeersBids sendingPeer stakeBid
        if s.allBade then
          match s.selectHighestBid with
          | none => none
          | some (winner, bid) =>
              match BlockCandidate.createNew summaryT now [bid.transaction]
                  stakes.lastBlock with
              | .error _ => none
              | .ok stakesBlock =>
                  let stakes := (stakes.submitNewBlock stakesBlock).1
                  let forged : Option (Option (BlockCandidate Transaction)) :=
                    if winner == s.nodeId then forgeBlock summaryT now transactions s
                    else some none
                  match forged with
                  | none => none
                  | some published =>
                      let s := { s with blockCreator := some winner, peersBids := [] }
                      some ⟨s, stakes, false, published⟩
        else
          some ⟨s, stakes, false, none⟩
      else
        match s.kick sendingPeer with
        | none => none
        | some s => some ⟨s, stakes, true, none⟩

/-- Rust `on_vote_received` (`none` = a panic inside the handler): record
the vote; once everyone voted, summarize and, on a majority, commit the
pending block — `take_pending_block().unwrap()` panics without one. -/
def onVoteReceived (transactions : Blockchain Transaction) (sendingPeer : PeerId)
    (s : NodeState) (blockValid : Bool) :
    Option (Blockchain Transaction × NodeState) :=
  let vote : Vote := ⟨sendingPeer, blockValid⟩
  let s := s.addVote vote
  if s.allVoted then
    let (result, s) := s.summarizeVotes
    if result.shouldAppendBlock then
      match s.pendingBlock with
      | none => none
      | some blockCandidate =>
          some ((transactions.submitNewBlock blockCandidate).1,
                { s with pendingBlock := none })
    else
      some (transactions, s)
  else
    some (transactions, s)

/-! ## Reference formulas written from the specification text

These two definitions follow the SPEC's balance formula word for word
(gained = every transaction with `target = A`), to be compared against the
source-derived `Wallet.balance`; `amendedGainedSpent` differs exactly
where the source's `else if` does (a self-transfer counts only as spent). -/

/-- Balance contribution of one transaction list as the spec words it:
`Σ amount (target = A) − Σ amount (source = A)`. -/
def specGainedSpent (a : Address) (pool : List Transaction) : Int :=
  ((pool.filter fun t => t.targetAddress == a).map Transaction.amount).sum -
    ((pool.filter fun t => t.sourceAddress == a).map Transaction.amount).sum

/-- Spec-worded committed-chain sum. -/
def specChainSum (a : Address) (c : Blockchain Transaction) : Int :=
  match c.lastBlock with
  | none => 0
  | some b => (b.nodes.map fun r => specGainedSpent a r.data).sum

/-- Spec-worded wallet balance (claim C6's formula). -/
def specBalance (a : Address) (tx sk : Blockchain Transaction) : Int :=
  if a == MINTING_WALLET_ADDRESS then tx.remainingPool
  else specChainSum a tx + specGainedSpent a tx.uncommittedData + specChainSum a sk

/-- Balance contribution as the code computes it: a transaction whose
source is `A` counts only as spent, even when its target is also `A`. -/
def amendedGainedSpent (a : Address) (pool : List Transaction) : Int :=
  ((pool.filter fun t => t.targetAddress == a && t.sourceAddress != a).map
      Transaction.amount).sum -
    ((pool.filter fun t => t.sourceAddress == a).map Transaction.amount).sum

/-- Committed-chain sum built on `amendedGainedSpent`. -/
def amendedChainSum (a : Address) (c : Blockchain Transaction) : Int :=
  match c.lastBlock with
  | none => 0
  | some b => (b.nodes.map fun r => amendedGainedSpent a r.data).sum

/-- Claim C6's formula with the gained-side corrected to exclude
self-sourced transactions. -/
def amendedBalance (a : Address) (tx sk : Blockchain Transaction) : Int :=
  if a == MINTING_WALLET_ADDRESS then tx.remainingPool
  else amendedChainSum a tx + amendedGainedSpent a tx.uncommittedData + amendedChainSum a sk

/-! ## Chains built by create-and-submit (claim C2's construction) -/

/-- One round of `BlockCandidate::create_new` followed by
`Blockchain::submit_new_block` (a failed creation changes nothing). -/
def appendStep (summaryT : Transaction → String) (c : Blockchain Transaction)
    (step : DateTime × List Transaction) : Blockchain Transaction :=
  match BlockCandidate.createNew summaryT step.1 step.2 c.lastBlock with
  | .ok cand => (c.submitNewBlock cand).1
  | .error _ => c

/-- A chain grown from `transaction_chain(genesis)` by repeatedly creating
and submitting candidates, one per `(now, data)` step. -/
def buildChain (summaryT : Transaction → String) (gnow : DateTime)
    (g : List Transaction) (steps : List (DateTime × List Transaction)) :
    Blockchain Transaction :=
  steps.foldl (appendStep summaryT) (Blockchain.transactionChain gnow g)

/-! ## Concrete inputs used by counterexamples and witnesses -/

/-- A verification primitive that accepts (verification succeeds). -/
def cVerifyOk : RsaPublicKey → String → String → Bool := fun _ _ _ => true

def cAddr1 : Address := List.replicate 32 9

def cWallet1 : Wallet := ⟨cAddr1, some 1⟩

def cTx1 : Transaction := Transaction.new cAddr1 (List.replicate 32 8) "t" 5 0

def cTxChain1 : Blockchain Transaction :=
  Blockchain.transactionChain 0 [Transaction.mintTx 70 cAddr1 0]

def cEmptyChain : Blockchain Transaction := Blockchain.transactionChain 0 []

def cValidator1 : TransactionValidator := ⟨[cWallet1], cTxChain1, cEmptyChain⟩

def cAddrBidder : Address := List.replicate 32 3

def cWalletBidder : Wallet := ⟨cAddrBidder, none⟩

def cState4 : NodeState :=
  { nodeId := 1, userWallet := ⟨List.replicate 32 7, 0⟩, nodeBid := none,
    peersBids := [], voting := false,
    wallets := [⟨List.replicate 32 7, none⟩, cWalletBidder, ⟨List.replicate 32 6, none⟩],
    peersWallets := [], blockCreator := none, votes := [], pendingBlock := none }

def cBid4 : StakeBid := StakeBid.bid 10 cAddrBidder 0

def cState5 : NodeState :=
  { nodeId := 1, userWallet := ⟨List.replicate 32 7, 0⟩, nodeBid := none,
    peersBids := [], voting := false,
    wallets := [⟨List.replicate 32 7, none⟩, ⟨List.replicate 32 6, none⟩],
    peersWallets := [], blockCreator := none, votes := [], pendingBlock := none }

def cValidator5 : TransactionValidator := ⟨[], cEmptyChain, cEmptyChain⟩

def cCand5 : BlockCandidate Transaction := ⟨BlockKey.sentinel, 0, [], 0⟩

def cCand10 : BlockCandidate Transaction := ⟨BlockKey.sentinel, 0, [], 0⟩

def cPeerBid9 : StakeBid := StakeBid.bid 5 (List.replicate 32 4) 0

def cBid9 : StakeBid := StakeBid.bid 5 (List.replicate 32 7) 0

def cState9 : NodeState :=
  { cState5 with peersBids := [(7, cPeerBid9)], nodeBid := some cBid9 }

def cAddr6 : Address := List.replicate 32 4

def cTxChain6 : Blockchain Transaction :=
  Blockchain.transactionChain 0 [Transaction.new cAddr6 cAddr6 "t" 5 0]

def cCand8 : BlockCandidate Transaction := ⟨BlockKey.sentinel, 1, [], 5⟩

def c2Tip : Block Transaction :=
  ⟨⟨[], BlockKey.sentinel, some 0, 0⟩, [⟨[], BlockKey.sentinel, some 0, 0⟩]⟩

def c2Prev : Block Transaction := ⟨⟨[], BlockKey.sentinel, some 0, 0⟩, []⟩

def c2WitTip : Block Transaction :=
  ⟨⟨[], BlockKey.sentinel, some 1, 1⟩,
   [⟨[], BlockKey.sentinel, some 0, 0⟩, ⟨[], BlockKey.sentinel, some 0, 0⟩]⟩

def cPrevHash3 : BlockHash := List.replicate 64 1

def cKey3 : BlockKey := ⟨List.replicate 64 0, some cPrevHash3⟩

/-! ## Helper lemmas -/

/-- FIPS 180-4 test vector: SHA-512 of the empty message. -/
example : sha512 [] = [
    0xcf, 0x83, 0xe1, 0x35, 0x7e, 0xef, 0xb8, 0xbd, 0xf1, 0x54, 0x28, 0x50,
    0xd6, 0x6d, 0x80, 0x07, 0xd6, 0x20, 0xe4, 0x05, 0x0b, 0x57, 0x15, 0xdc,
    0x83, 0xf4, 0xa9, 0x21, 0xd3, 0x6c, 0xe9, 0xce, 0x47, 0xd0, 0xd1, 0x3c,
    0x5d, 0x85, 0xf2, 0xb0, 0xff, 0x83, 0x18, 0xd2, 0x87, 0x7e, 0xec, 0x2f,
    0x63, 0xb9, 0x31, 0xbd, 0x47, 0x41, 0x7a, 0x81, 0xa5, 0x38, 0x32, 0x7a,
    0xf9, 0x27, 0xda, 0x3e] := by decide

/-- FIPS 180-4 test vector: SHA-512 of `"abc"`. -/
example : sha512 [0x61, 0x62, 0x63] = [
    0xdd, 0xaf, 0x35, 0xa1, 0x93, 0x61, 0x7a, 0xba, 0xcc, 0x41, 0x73, 0x49,
    0xae, 0x20, 0x41, 0x31, 0x12, 0xe6, 0xfa, 0x4e, 0x89, 0xa9, 0x7e, 0xa2,
    0x0a, 0x9e, 0xee, 0xe6, 0x4b, 0x55, 0xd3, 0x9a, 0x21, 0x92, 0x99, 0x2a,
    0x27, 0x4f, 0xc1, 0xa8, 0x36, 0xba, 0x3c, 0x23, 0xa3, 0xfe, 0xeb, 0xbd,
    0x45, 0x4d, 0x44, 0x23, 0x64, 0x3c, 0xe8, 0x0e, 0x2a, 0x9a, 0xc9, 0x4f,
    0xa5, 0x4c, 0xa4, 0x9f] := by decide

example : strBytes "ab" = [0x61, 0x62] := by decide

theorem mint_fst_lastBlock {T : Type} (c : Blockchain T) (a : Int) :
    ((c.mint a).1).lastBlock = c.lastBlock := by
  unfold Blockchain.mint; split <;> rfl

theorem mint_fst_chainLength {T : Type} (c : Blockchain T) (a : Int) :
    ((c.mint a).1).chainLength = c.chainLength := by
  unfold Blockchain.mint; split <;> rfl

theorem submitNewBlock_tip {T : Type} (c : Blockchain T) (cand : BlockCandidate T)
    (tail : Block T) (hc : c.lastBlock = some tail) :
    (c.submitNewBlock cand).1.lastBlock =
      some ⟨⟨cand.data, cand.key, some cand.time, c.chainLength⟩,
            tail.node :: tail.prevNodes⟩ ∧
    (c.submitNewBlock cand).1.chainLength = c.chainLength + 1 := by
  obtain ⟨last, len, unc, units, pool⟩ := c
  cases last with
  | none => simp at hc
  | some t =>
      obtain rfl : t = tail := by simpa using hc
      exact ⟨rfl, rfl⟩

theorem maxBidEntry_cons (x y : PeerId × StakeBid) (ys : List (PeerId × StakeBid)) :
    maxBidEntry x (y :: ys) = maxBidEntry (if x.2.stake > y.2.stake then x else y) ys := rfl

theorem maxBidEntry_mem (xs : List (PeerId × StakeBid)) :
    ∀ x : PeerId × StakeBid, maxBidEntry x xs ∈ x :: xs := by
  induction xs with
  | nil => intro x; simp [maxBidEntry]
  | cons y ys ih =>
      intro x
      rw [maxBidEntry_cons]
      by_cases h : x.2.stake > y.2.stake
      · rw [if_pos h]
        rcases List.mem_cons.mp (ih x) with h' | h'
        · rw [h']; exact List.mem_cons_self _ _
        · exact List.mem_cons_of_mem _ (List.mem_cons_of_mem _ h')
      · rw [if_neg h]
        exact List.mem_cons_of_mem _ (ih y)

theorem maxBidEntry_ge (xs : List (PeerId × StakeBid)) :
    ∀ x : PeerId × StakeBid, ∀ p ∈ x :: xs, p.2.stake ≤ (maxBidEntry x xs).2.stake := by
  induction xs with
  | nil =>
      intro x p hp
      rcases List.mem_cons.mp hp with rfl | h'
      · exact le_refl _
      · cases h'
  | cons y ys ih =>
      intro x p hp
      rw [maxBidEntry_cons]
      have hxle : x.2.stake ≤ (maxBidEntry (if x.2.stake > y.2.stake then x else y) ys).2.stake := by
        by_cases h : x.2.stake > y.2.stake
        · rw [if_pos h]; exact ih x x (List.mem_cons_self _ _)
        · rw [if_neg h]
          exact le_trans (not_lt.mp h) (ih y y (List.mem_cons_self _ _))
      have hyle : y.2.stake ≤ (maxBidEntry (if x.2.stake > y.2.stake then x else y) ys).2.stake := by
        by_cases h : x.2.stake > y.2.stake
        · rw [if_pos h]; exact le_trans (le_of_lt h) (ih x x (List.mem_cons_self _ _))
        · rw [if_neg h]; exact ih y y (List.mem_cons_self _ _)
      rcases List.mem_cons.mp hp with rfl | hp'
      · exact hxle
      rcases List.mem_cons.mp hp' with rfl | hp''
      · exact hyle
      by_cases h : x.2.stake > y.2.stake
      · rw [if_pos h]; exact ih x p (List.mem_cons_of_mem _ hp'')
      · rw [if_neg h]; exact ih y p (List.mem_cons_of_mem _ hp'')

/-! ## Claim theorems -/

/-- C10: the validator's cardinality gate — whenever the candidate's data
vector length differs from `2 * TRANSACTIONS_PER_BLOCK + 2`, `block_valid`
returns the transaction-validation error without evaluating any other
rule, for every wallet set, both chains, verification primitive, and
summary function. -/
theorem C10_cardinality_gate (verify : RsaPublicKey → String → String → Bool)
    (summaryT : Transaction → String) (wallets : List Wallet)
    (transactions stakes : Blockchain Transaction)
    (blockCandidate : BlockCandidate Transaction)
    (h : blockCandidate.data.length ≠ 2 * TRANSACTIONS_PER_BLOCK + 2) :
    TransactionValidator.blockValid verify summaryT ⟨wallets, transactions, stakes⟩
      blockCandidate = some (.error .transactionInvalid) := by
  unfold TransactionValidator.blockValid
  rw [if_neg]
  simpa [TOTAL_TRANSFERS_PER_BLOCK] using h

/-- C10 witness: a candidate with an empty data vector (length 0 ≠ 4) is
rejected outright. -/
theorem C10_cardinality_gate_witness :
    TransactionValidator.blockValid cVerifyOk (fun _ => "")
      ⟨[], cEmptyChain, cEmptyChain⟩ cCand10 = some (.error .transactionInvalid) :=
  C10_cardinality_gate cVerifyOk (fun _ => "") [] cEmptyChain cEmptyChain cCand10 (by decide)

/-- C7: `summarize_votes` returns the tally (true verdicts, false
verdicts), empties the vote set and clears the voting flag leaving every
other field unchanged, and `should_append_block` holds iff strictly more
valid than invalid votes (so a tie rejects). -/
theorem C7_summarize_votes (s : NodeState) :
    (s.summarizeVotes.1.blockValid = ((s.votes.filter fun v => v.blockValid).length : Int)) ∧
    (s.summarizeVotes.1.blockInvalid = ((s.votes.filter fun v => !v.blockValid).length : Int)) ∧
    (s.summarizeVotes.2 = { s with votes := [], voting := false }) ∧
    (s.summarizeVotes.1.shouldAppendBlock = true ↔
      s.summarizeVotes.1.blockValid > s.summarizeVotes.1.blockInvalid) := by
  refine ⟨rfl, rfl, rfl, ?_⟩
  simp [VotingResult.shouldAppendBlock]

/-- C9: with at least one peer bid recorded and a local bid present,
`select_highest_bid` returns the local node whenever its stake is at least
the peers' maximum, and otherwise returns a recorded peer entry carrying
that maximum stake. -/
theorem C9_tie_break (s : NodeState) (x : PeerId × StakeBid)
    (xs : List (PeerId × StakeBid)) (b : StakeBid)
    (hp : s.peersBids = x :: xs) (hb : s.nodeBid = some b) :
    ((maxBidEntry x xs).2.stake ≤ b.stake → s.selectHighestBid = some (s.nodeId, b)) ∧
    (b.stake < (maxBidEntry x xs).2.stake →
      s.selectHighestBid = some (maxBidEntry x xs) ∧
      maxBidEntry x xs ∈ s.peersBids ∧
      ∀ p ∈ s.peersBids, p.2.stake ≤ (maxBidEntry x xs).2.stake) := by
  have hsel : s.selectHighestBid =
      (if (maxBidEntry x xs).2.stake > b.stake then some (maxBidEntry x xs)
       else some (s.nodeId, b)) := by
    unfold NodeState.selectHighestBid
    rw [hp, hb]
  constructor
  · intro hle
    rw [hsel, if_neg (not_lt.mpr hle)]
  · intro hlt
    refine ⟨by rw [hsel, if_pos hlt], ?_, ?_⟩
    · rw [hp]; exact maxBidEntry_mem xs x
    · rw [hp]; exact maxBidEntry_ge xs x

/-- C9 witness: a concrete tie (peer stake 5 vs local stake 5) where the
local node wins. -/
theorem C9_tie_break_witness :
    cState9.selectHighestBid = some (cState9.nodeId, cBid9) :=
  (C9_tie_break cState9 (7, cPeerBid9) [] cBid9 rfl rfl).1 (by decide)

/-- C1 (code bug): the source computes
`verify(content, sig).is_err()` and returns it, so `is_signature_valid` is
the NEGATION of the verification outcome.  Concretely, with a primitive
for which verification succeeds and a source wallet holding 70 ≥ 5 units,
`is_signature_valid` still answers `false` and the validator's transfer
rule rejects the transaction — the repository's own
`ok_on_valid_transaction` test expects acceptance here. -/
theorem C1_signature_check_inverted :
    (∀ (verify : RsaPublicKey → String → String → Bool) (k : RsaPublicKey)
        (w : Wallet) (t : Transaction) (sig : String),
        w.publicKey = some k →
          Wallet.isSignatureValid verify w t sig = !(verify k t.signedContent sig)) ∧
    cVerifyOk 1 cTx1.signedContent "sig" = true ∧
    Wallet.isSignatureValid cVerifyOk cWallet1 cTx1 "sig" = false ∧
    cWallet1.balance cTxChain1 cEmptyChain = 70 ∧
    TransactionValidator.validateTransfer cVerifyOk cValidator1 cTx1 "sig" cWallet1 =
      .error .transactionInvalid := by
  refine ⟨?_, rfl, rfl, by decide, rfl⟩
  intro verify k w t sig hk
  simp [Wallet.isSignatureValid, hk]

/-- C1 witness: the inversion equation instantiated at the concrete
always-accepting primitive. -/
theorem C1_signature_check_inverted_witness :
    Wallet.isSignatureValid cVerifyOk cWallet1 cTx1 "sig" =
      !(cVerifyOk 1 cTx1.signedContent "sig") :=
  C1_signature_check_inverted.1 cVerifyOk 1 cWallet1 cTx1 "sig" rfl

/-- C4 (code bug): `on_stake_raised` tests `!balance < amount`, which Rust
parses as `(bitwise-not balance) < amount`.  With a known bidder whose
balance is 0 and a bid of amount 10 (balance strictly below the amount),
the handler records the bid instead of banning and kicking the peer. -/
theorem C4_insufficient_bid_recorded :
    cWalletBidder.balance cEmptyChain cEmptyChain = 0 ∧
    cBid4.transaction.amount = 10 ∧
    onStakeRaised (fun _ => "") 0 cEmptyChain 2 cState4 cEmptyChain cBid4 =
      some ⟨{ cState4 with peersBids := [(2, cBid4)] }, cEmptyChain, false, none⟩ := by
  exact ⟨by decide, rfl, by decide⟩

/-- C5 (code bug): three consensus-handler paths panic — completion of a
vote round with no pending block (`take_pending_block().unwrap()`),
stake-return validation on a stakes tip with empty data (`data()[0]`),
and kicking a peer with no recorded wallet
(`peers_wallets.remove(&peer).unwrap()`); `none` is the embedded panic. -/
theorem C5_handler_panics :
    onVoteReceived cEmptyChain 2 cState5 true = none ∧
    cValidator5.validateStakeReturn cCand5 = none ∧
    cState5.kick 2 = none := by
  exact ⟨by decide, rfl, rfl⟩

/-- Folding create-and-submit steps preserves the shape of locally built
chains: some tip exists, the chain length counts the appended blocks, the
visited block numbers read `k-1, …, 1, 0` and then the genesis `0`, and
every block key (the genesis's included) is the sentinel. -/
theorem foldl_appendStep_inv (summaryT : Transaction → String)
    (steps : List (DateTime × List Transaction)) :
    ∀ c : Blockchain Transaction,
      (∃ b, c.lastBlock = some b ∧
        ((b.nodes.map fun r => r.blockNumber) =
          (List.range c.chainLength).reverse ++ [0]) ∧
        ∀ r ∈ b.nodes, r.key = BlockKey.sentinel) →
      ∃ b, (steps.foldl (appendStep summaryT) c).lastBlock = some b ∧
        (steps.foldl (appendStep summaryT) c).chainLength = c.chainLength + steps.length ∧
        ((b.nodes.map fun r => r.blockNumber) =
          (List.range (c.chainLength + steps.length)).reverse ++ [0]) ∧
        ∀ r ∈ b.nodes, r.key = BlockKey.sentinel := by
  induction steps with
  | nil =>
      intro c h
      obtain ⟨b, hb, hmap, hkeys⟩ := h
      exact ⟨b, hb, by simp, by simpa using hmap, hkeys⟩
  | cons st sts ih =>
      intro c h
      obtain ⟨b, hb, hmap, hkeys⟩ := h
      have hkey : b.key = BlockKey.sentinel := hkeys b.node (List.mem_cons_self _ _)
      have hcand : BlockCandidate.createNew summaryT st.1 st.2 c.lastBlock =
          .ok ⟨BlockKey.sentinel, b.blockNumber + 1, st.2, st.1⟩ := by
        rw [hb]
        show Except.ok ⟨BlockCandidate.hashKey b.key (BlockCandidate.summarize summaryT st.2),
              b.blockNumber + 1, st.2, st.1⟩ =
            Except.ok (⟨BlockKey.sentinel, b.blockNumber + 1, st.2, st.1⟩ :
              BlockCandidate Transaction)
        rw [hkey]
        rfl
      have hstep : appendStep summaryT c st =
          (c.submitNewBlock ⟨BlockKey.sentinel, b.blockNumber + 1, st.2, st.1⟩).1 := by
        unfold appendStep
        rw [hcand]
      obtain ⟨htip, hlen⟩ :=
        submitNewBlock_tip c ⟨BlockKey.sentinel, b.blockNumber + 1, st.2, st.1⟩ b hb
      have hinv : ∃ b1, (appendStep summaryT c st).lastBlock = some b1 ∧
          ((b1.nodes.map fun r => r.blockNumber) =
            (List.range (appendStep summaryT c st).chainLength).reverse ++ [0]) ∧
          ∀ r ∈ b1.nodes, r.key = BlockKey.sentinel := by
        refine ⟨⟨⟨st.2, BlockKey.sentinel, some st.1, c.chainLength⟩,
                 b.node :: b.prevNodes⟩, ?_, ?_, ?_⟩
        · rw [hstep]; exact htip
        · rw [hstep, hlen]
          simp only [Block.nodes, List.map_cons, List.range_succ, List.reverse_append,
            List.reverse_singleton, List.singleton_append, List.cons_append]
          exact congrArg (c.chainLength :: ·) hmap
        · intro r hr
          rcases List.mem_cons.mp hr with rfl | hr'
          · rfl
          · exact hkeys r hr'
      obtain ⟨b2, hb2, hlen2, hmap2, hkeys2⟩ := ih (appendStep summaryT c st) hinv
      have hlenstep : (appendStep summaryT c st).chainLength = c.chainLength + 1 := by
        rw [hstep]; exact hlen
      simp only [List.foldl_cons, List.length_cons]
      refine ⟨b2, hb2, ?_, ?_, hkeys2⟩
      · rw [hlen2, hlenstep]
        omega
      · rw [hmap2, hlenstep]
        have heq : c.chainLength + 1 + sts.length = c.chainLength + (sts.length + 1) := by
          omega
        rw [heq]

/-- C2 (corrected): in a chain grown from `transaction_chain` by
create-and-submit, every block key — non-genesis blocks included — is the
all-zero sentinel with NO previous hash (`BlockCandidate::hash` propagates
the genesis sentinel), and block numbers are overwritten at append time to
the pre-append chain length, so the numbers from tip to genesis read
`n-1, …, 1, 0, 0`: the first appended block repeats the genesis's number 0
and only later blocks satisfy `number = previous.number + 1`. -/
theorem C2_chain_linkage_amended (summaryT : Transaction → String) (gnow : DateTime)
    (g : List Transaction) (steps : List (DateTime × List Transaction))
    (b : Block Transaction)
    (hb : (buildChain summaryT gnow g steps).lastBlock = some b) :
    ((buildChain summaryT gnow g steps).chainLength = steps.length) ∧
    ((b.nodes.map fun r => r.blockNumber) = (List.range steps.length).reverse ++ [0]) ∧
    (∀ r ∈ b.nodes, r.key = BlockKey.sentinel) := by
  have hbase : ∃ b0, (Blockchain.transactionChain gnow g).lastBlock = some b0 ∧
      ((b0.nodes.map fun r => r.blockNumber) =
        (List.range (Blockchain.transactionChain gnow g).chainLength).reverse ++ [0]) ∧
      ∀ r ∈ b0.nodes, r.key = BlockKey.sentinel := by
    refine ⟨⟨⟨g, BlockKey.sentinel, some gnow, 0⟩, []⟩, ?_, ?_, ?_⟩
    · unfold Blockchain.transactionChain
      rw [mint_fst_lastBlock]
      rfl
    · unfold Blockchain.transactionChain
      rw [mint_fst_chainLength]
      rfl
    · intro r hr
      rcases List.mem_cons.mp hr with rfl | hr'
      · rfl
      · cases hr'
  obtain ⟨b', hb', hlen', hmap', hkeys'⟩ :=
    foldl_appendStep_inv summaryT steps (Blockchain.transactionChain gnow g) hbase
  have hlen0 : (Blockchain.transactionChain gnow g).chainLength = 0 := by
    unfold Blockchain.transactionChain
    rw [mint_fst_chainLength]
    rfl
  rw [hlen0] at hlen' hmap'
  have hbb : b = b' :=
    Option.some.inj ((hb.symm.trans
      (show (buildChain summaryT gnow g steps).lastBlock = some b' from hb')))
  subst hbb
  refine ⟨?_, ?_, hkeys'⟩
  · show (steps.foldl (appendStep summaryT) (Blockchain.transactionChain gnow g)).chainLength
        = steps.length
    rw [hlen']
    simp
  · rw [hmap']
    simp

/-- C2 counterexample: append one block (created by
`BlockCandidate::create_new`, committed by `submit_new_block`) to a fresh
transaction chain.  The resulting tip is a non-genesis block whose key has
NO previous hash (so it does not equal `some` of the genesis hash) and
whose number 0 is not the genesis number plus one. -/
theorem C2_chain_linkage_counterexample :
    (buildChain (fun _ => "") 0 [] [(0, [])]).lastBlock = some c2Tip ∧
    c2Tip.previousBlock = some c2Prev ∧
    ¬ (c2Tip.key.previousHash = some c2Prev.key.hash ∧
       c2Tip.blockNumber = c2Prev.blockNumber + 1) := by
  exact ⟨by decide, rfl, by decide⟩

/-- C2 witness: the amended statement evaluated on two appended blocks —
numbers read `1, 0, 0` from the tip and every key is the sentinel. -/
theorem C2_chain_linkage_amended_witness :
    ((buildChain (fun _ => "") 0 [] [(0, []), (1, [])]).chainLength = 2) ∧
    ((c2WitTip.nodes.map fun r => r.blockNumber) = (List.range 2).reverse ++ [0]) ∧
    (∀ r ∈ c2WitTip.nodes, r.key = BlockKey.sentinel) :=
  C2_chain_linkage_amended (fun _ => "") 0 [] [(0, []), (1, [])] c2WitTip (by decide)

/-- C3 counterexample: the claim's genesis-child clause fails — hashing
against the genesis sentinel returns the sentinel's all-zero hash, which
is NOT `SHA-512(0…0 ‖ s)` (shown at `s = ""`). -/
theorem C3_hash_counterexample :
    (BlockCandidate.hashKey BlockKey.sentinel "").hash ≠
      sha512 (List.replicate 64 0 ++ strBytes "") := by decide

/-- C3 (corrected): `BlockCandidate::hash` maps a key with
`previous_hash = Some h` to `(SHA-512(h ‖ s), Some h)` and any key with
`previous_hash = None` — the genesis sentinel in particular — to the
sentinel itself, NOT to a SHA-512-seeded key. -/
theorem C3_hash_determinism_amended (K : BlockKey) (h : BlockHash) (s : String) :
    (K.previousHash = some h →
      BlockCandidate.hashKey K s = ⟨sha512 (h ++ strBytes s), some h⟩) ∧
    (K.previousHash = none → BlockCandidate.hashKey K s = BlockKey.sentinel) ∧
    BlockCandidate.hashKey BlockKey.sentinel s = BlockKey.sentinel := by
  refine ⟨fun hK => ?_, fun hK => ?_, rfl⟩ <;> simp [BlockCandidate.hashKey, hK]

/-- C3 witness: the `Some h` clause evaluated at a concrete previous key. -/
theorem C3_hash_determinism_amended_witness :
    BlockCandidate.hashKey cKey3 "" =
      ⟨sha512 (cPrevHash3 ++ strBytes ""), some cPrevHash3⟩ :=
  (C3_hash_determinism_amended cKey3 cPrevHash3 "").1 rfl

/-- C8 counterexample: the committed block keeps the CANDIDATE's
timestamp (5 here), so its commit time cannot equal an arbitrary
submission moment. -/
theorem C8_commit_time_counterexample :
    ((cEmptyChain.submitNewBlock cCand8).1.lastBlock.map Block.time = some (some 5)) ∧
    ¬ ∀ now : DateTime,
        (cEmptyChain.submitNewBlock cCand8).1.lastBlock.map Block.time = some (some now) := by
  have h5 : (cEmptyChain.submitNewBlock cCand8).1.lastBlock.map Block.time
      = some (some 5) := by decide
  refine ⟨h5, fun hall => ?_⟩
  have h6 := hall 6
  rw [h5] at h6
  simp at h6

/-- C8 (corrected): `submit_new_block` appends at the tip a block whose
commit time is the CANDIDATE's timestamp, whose number is the chain length
before the call (as is the returned result's), drops exactly
`min(pool length, units-per-block)` entries from the front of the
uncommitted pool, and increments the chain length by one. -/
theorem C8_submit_block_amended {T : Type} (c : Blockchain T) (cand : BlockCandidate T) :
    ∃ b : Block T,
      (c.submitNewBlock cand).1.lastBlock = some b ∧
      b.time = some cand.time ∧
      b.blockNumber = c.chainLength ∧
      b.data = cand.data ∧
      b.key = cand.key ∧
      (c.submitNewBlock cand).1.uncommittedData =
        c.uncommittedData.drop (min c.uncommittedData.length c.dataUnitsPerBlock) ∧
      (c.submitNewBlock cand).1.chainLength = c.chainLength + 1 ∧
      (c.submitNewBlock cand).2.blockNumber = c.chainLength := by
  obtain ⟨last, len, unc, units, pool⟩ := c
  cases last with
  | none =>
      exact ⟨⟨⟨cand.data, cand.key, some cand.time, len⟩, []⟩,
        rfl, rfl, rfl, rfl, rfl, rfl, rfl, rfl⟩
  | some tail =>
      exact ⟨⟨⟨cand.data, cand.key, some cand.time, len⟩, tail.node :: tail.prevNodes⟩,
        rfl, rfl, rfl, rfl, rfl, rfl, rfl, rfl⟩

/-- C6 counterexample: a genesis transaction whose source and target are
both `A` hits the `else if` in `balance_pool` — the code counts it only as
spent (balance −5) while the claim's gained − spent formula yields 0. -/
theorem C6_balance_counterexample :
    Wallet.balance ⟨cAddr6, none⟩ cTxChain6 cEmptyChain ≠
      specBalance cAddr6 cTxChain6 cEmptyChain ∧
    Wallet.balance ⟨cAddr6, none⟩ cTxChain6 cEmptyChain = -5 ∧
    specBalance cAddr6 cTxChain6 cEmptyChain = 0 := by
  exact ⟨by decide, by decide, by decide⟩

theorem balancePool_foldl (w : Wallet) (pool : List Transaction) :
    ∀ s g : Int,
      pool.foldl (fun (acc : Int × Int) transaction =>
        if transaction.sourceAddress == w.address then (acc.1 + transaction.amount, acc.2)
        else if transaction.targetAddress == w.address then (acc.1, acc.2 + transaction.amount)
        else acc) (s, g) =
      (s + ((pool.filter fun t => t.sourceAddress == w.address).map Transaction.amount).sum,
       g + ((pool.filter fun t =>
              t.targetAddress == w.address && t.sourceAddress != w.address).map
                Transaction.amount).sum) := by
  induction pool with
  | nil => intro s g; simp
  | cons t ts ih =>
      intro s g
      by_cases h1 : t.sourceAddress == w.address
      · simp only [List.foldl_cons, List.filter_cons, h1, if_pos, bne,
          Bool.not_true, Bool.and_false, if_true, Bool.false_eq_true, if_false,
          List.map_cons, List.sum_cons, ih]
        simp only [Prod.mk.injEq]
        exact ⟨by ring, trivial⟩
      · by_cases h2 : t.targetAddress == w.address
        · simp only [List.foldl_cons, List.filter_cons, h1, h2, bne, Bool.not_false,
            Bool.and_true, if_true, Bool.false_eq_true, if_false, List.map_cons,
            List.sum_cons, ih]
          simp only [Prod.mk.injEq]
          exact ⟨trivial, by ring⟩
        · simp only [List.foldl_cons, List.filter_cons, h1, h2, bne, Bool.and_false,
            Bool.false_and, Bool.false_eq_true, if_false, ih]

/-- The imperative accumulator of `balance_pool` equals the corrected
filter/sum formula. -/
theorem balancePool_eq (w : Wallet) (pool : List Transaction) :
    w.balancePool pool = amendedGainedSpent w.address pool := by
  unfold Wallet.balancePool amendedGainedSpent
  rw [balancePool_foldl w pool 0 0]
  simp

/-- The chain walk of `balance_chain` equals the corrected per-block sum. -/
theorem balanceChain_eq (w : Wallet) (c : Blockchain Transaction) :
    w.balanceChain c = amendedChainSum w.address c := by
  unfold Wallet.balanceChain amendedChainSum
  cases c.lastBlock with
  | none => rfl
  | some b => simp [balancePool_eq]

/-- C6 (corrected): `balance` equals the claim's formula with the gained
side restricted to transactions whose source is NOT the wallet itself
(the code's `else if` skips the gained branch for self-sourced
transactions): mint reads the remaining pool, every other wallet sums the
corrected gained − spent over the committed transaction chain, the
uncommitted pool, and the committed stakes chain. -/
theorem C6_balance_amended (w : Wallet) (tx sk : Blockchain Transaction) :
    w.balance tx sk = amendedBalance w.address tx sk := by
  unfold Wallet.balance amendedBalance
  by_cases h : w.address == MINTING_WALLET_ADDRESS
  · simp [h]
  · simp [h, balanceChain_eq, balancePool_eq]

end Kingcoin
